import Mathlib

/-!
Verification of the QueryBot hybrid query engine against its specification.

The Python sources are shallowly embedded: Python strings become `List Char`,
Python dicts become association lists, `None` becomes `Option.none`, and the
external collaborators (MySQL driver, language model, Chroma vector store,
PDF extractors) become explicit function parameters, so that every embedded
function is executable and every control path of the source is represented.
-/

/-! ## Basic string machinery (model of Python `str` operations) -/

/-- Characters of a string literal, the embedding of a Python `str` value. -/
def str (s : String) : List Char := s.data

/-- Python `str.isspace` / the `\s` class of `re` on ASCII text:
space, tab, newline, carriage return, vertical tab, form feed. -/
def isPySpace (c : Char) : Bool :=
  c == ' ' || c == '\t' || c == '\n' || c == '\r' || c == '\x0b' || c == '\x0c'

/-- ASCII fragment of Python `str.upper`: maps `a`–`z` to `A`–`Z` and fixes
every other character (the sources only ever feed it SQL text). -/
def asciiUpper (c : Char) : Char :=
  match c with
  | 'a' => 'A' | 'b' => 'B' | 'c' => 'C' | 'd' => 'D' | 'e' => 'E' | 'f' => 'F'
  | 'g' => 'G' | 'h' => 'H' | 'i' => 'I' | 'j' => 'J' | 'k' => 'K' | 'l' => 'L'
  | 'm' => 'M' | 'n' => 'N' | 'o' => 'O' | 'p' => 'P' | 'q' => 'Q' | 'r' => 'R'
  | 's' => 'S' | 't' => 'T' | 'u' => 'U' | 'v' => 'V' | 'w' => 'W' | 'x' => 'X'
  | 'y' => 'Y' | 'z' => 'Z' | c => c

/-- ASCII fragment of Python `str.lower`, used to model `re.IGNORECASE`. -/
def asciiLower (c : Char) : Char :=
  match c with
  | 'A' => 'a' | 'B' => 'b' | 'C' => 'c' | 'D' => 'd' | 'E' => 'e' | 'F' => 'f'
  | 'G' => 'g' | 'H' => 'h' | 'I' => 'i' | 'J' => 'j' | 'K' => 'k' | 'L' => 'l'
  | 'M' => 'm' | 'N' => 'n' | 'O' => 'o' | 'P' => 'p' | 'Q' => 'q' | 'R' => 'r'
  | 'S' => 's' | 'T' => 't' | 'U' => 'u' | 'V' => 'v' | 'W' => 'w' | 'X' => 'x'
  | 'Y' => 'y' | 'Z' => 'z' | c => c

/-- Python `pat in s` on strings: `pat` occurs as a contiguous substring of `s`
(the empty pattern is contained in every string, as in Python). -/
def containsSub (pat : List Char) : List Char → Bool
  | [] => pat.isEmpty
  | s@(_ :: t) => pat.isPrefixOf s || containsSub pat t

/-- Left part of Python `str.strip()`: drop leading whitespace. -/
def lstrip (s : List Char) : List Char := s.dropWhile isPySpace

/-- Right part of Python `str.strip()`: drop trailing whitespace. -/
def rstrip (s : List Char) : List Char := (s.reverse.dropWhile isPySpace).reverse

/-- Python `str.strip()`: drop leading and trailing whitespace. -/
def strip (s : List Char) : List Char := rstrip (lstrip s)

/-- Case-insensitive literal match at the start of `s`; the pattern is given
in lowercase.  Models matching a literal under `re.IGNORECASE`. -/
def ciStartsWith : List Char → List Char → Bool
  | [], _ => true
  | _ :: _, [] => false
  | p :: ps, c :: cs => p == asciiLower c && ciStartsWith ps cs

/-- Does a case-insensitive occurrence of `pat` start at any position of `s`?
Models `re.search` finding a match of the literal `pat` somewhere in `s`. -/
def ciHasOccur (pat : List Char) : List Char → Bool
  | [] => false
  | s@(_ :: t) => ciStartsWith pat s || ciHasOccur pat t

/-- Does a case-insensitive occurrence of `pat` start at a position strictly
inside `pre` when scanning the string `pre ++ rest`?  Used to state that a
regex scan reaches the boundary between `pre` and `rest` without matching. -/
def ciStartsIn (pat : List Char) : List Char → List Char → Bool
  | [], _ => false
  | pre@(_ :: p), rest => ciStartsWith pat (pre ++ rest) || ciStartsIn pat p rest

/-- The text of `s` strictly before the first occurrence of `pat`, or `none`
when `pat` does not occur.  Scans left to right like `re.search`. -/
def beforeSub (pat : List Char) : List Char → Option (List Char)
  | [] => if pat.isEmpty then some [] else none
  | s@(c :: t) =>
    if pat.isPrefixOf s then some []
    else (beforeSub pat t).map (fun u => c :: u)

/-! ## QueryGuard: `validate_query` (src/src/utils.py lines 103–117)

```python
def validate_query(query: str) -> Tuple[bool, str]:
    query = query.strip().upper()
    if not query:
        return False, "Empty query"
    forbidden = ["DROP", "TRUNCATE", "GRANT", "REVOKE", "SHUTDOWN"]
    for keyword in forbidden:
        if keyword in query:
            return False, f"Query contains forbidden keyword: {keyword}"
    if not query.startswith("SELECT"):
        return False, "Only SELECT queries are allowed in this demo"
    return True, ""
```
-/

/-- The forbidden keyword list of `validate_query`, in source order. -/
def forbidden : List (List Char) :=
  [str "DROP", str "TRUNCATE", str "GRANT", str "REVOKE", str "SHUTDOWN"]

/-- Embedding of `validate_query`.  The `for` loop returning on the first
contained keyword is `List.find?` over the list in source order. -/
def validate_query (query : List Char) : Bool × List Char :=
  let query := (strip query).map asciiUpper
  if query.isEmpty then (false, str "Empty query")
  else
    match forbidden.find? (fun keyword => containsSub keyword query) with
    | some keyword => (false, str "Query contains forbidden keyword: " ++ keyword)
    | none =>
      if (str "SELECT").isPrefixOf query then (true, [])
      else (false, str "Only SELECT queries are allowed in this demo")

/-- Maximal runs of identifier characters (letters, digits, underscore):
the standalone tokens of a SQL string, used to state that the keyword check
of `validate_query` is substring-based rather than token-based. -/
def isWordChar (c : Char) : Bool :=
  ('A' ≤ c && c ≤ 'Z') || ('a' ≤ c && c ≤ 'z') || ('0' ≤ c && c ≤ '9') || c == '_'

/-- Accumulator-based tokenizer: `cur` holds the current word reversed. -/
def tokenizeAux : List Char → List Char → List (List Char)
  | cur, [] => if cur.isEmpty then [] else [cur.reverse]
  | cur, c :: t =>
    if isWordChar c then tokenizeAux (c :: cur) t
    else if cur.isEmpty then tokenizeAux [] t
    else cur.reverse :: tokenizeAux [] t

/-- The standalone identifier tokens of a string. -/
def tokenize (s : List Char) : List (List Char) := tokenizeAux [] s

/-! ## QueryExecutor: `run_query` (src/src/utils.py lines 119–136)

```python
def run_query(query):
    start_time = time.time()
    try:
        is_valid, validation_msg = validate_query(query)
        if not is_valid:
            return None, f"Invalid query: {validation_msg}", 0
        if "db" in st.session_state and st.session_state.db:
            connection, cursor = st.session_state.db
            cursor.execute(query)
            result = cursor.fetchall()
            ...
            return result, None, execution_time
        return None, "⚠️ Please connect to the database first.", 0
    except mysql.connector.Error as e:
        ...
        return None, f"❌ Error executing query: {e}", execution_time
```

The database session is modelled as `Option` of a driver function mapping a
statement to either its rows or a driver error message; the third component
of the result records the list of statements actually sent to the driver
(empty when nothing was executed).  Wall-clock timing is not modelled. -/

/-- Embedding of `run_query` over an abstract row type `ρ`. -/
def run_query {ρ : Type} (db : Option (List Char → Except (List Char) (List ρ)))
    (query : List Char) :
    Option (List ρ) × Option (List Char) × List (List Char) :=
  let v := validate_query query
  if v.1 = false then (none, some (str "Invalid query: " ++ v.2), [])
  else
    match db with
    | some driver =>
      match driver query with
      | .ok result => (some result, none, [query])
      | .error e => (none, some (str "❌ Error executing query: " ++ e), [query])
    | none => (none, some (str "⚠️ Please connect to the database first."), [])

/-! ## SQLTranslator: `extract_sql_query` (src/src/utils.py lines 162–180)

```python
def extract_sql_query(text: str) -> str:
    think_end = text.find("</think>")
    if think_end != -1:
        text = text[think_end + len("</think>"):]
    match = re.search(r"```sql\s*(.*?)\s*```", text, re.DOTALL | re.IGNORECASE)
    if match:
        return match.group(1).strip()
    match = re.search(r"SQL query:\s*(SELECT .*?;)", text, re.DOTALL | re.IGNORECASE)
    if match:
        return match.group(1).strip()
    match = re.search(r"(SELECT .*?;)", text, re.DOTALL | re.IGNORECASE)
    if match:
        return match.group(1).strip()
    return text.strip()
```

The three fixed regexes are hand-compiled into scanners with `re.search`
semantics (leftmost start position wins; at a failed start the scan resumes
one character further).

For the fenced pattern ```` ```sql\s*(.*?)\s*``` ```` the value
`match.group(1).strip()` equals `strip` of the text between the end of the
opening ```` ```sql ```` and the first ```` ``` ```` after it: the greedy
`\s*` after ```` ```sql ```` consumes exactly the leading whitespace, the
lazy `(.*?)` stops at the earliest point from which `\s*```` ``` ```` can
match, which trims exactly the trailing whitespace before the first
```` ``` ```` (no occurrence of ```` ``` ```` can start inside a whitespace
run, its characters being non-whitespace), and the final `.strip()` of the
group absorbs both trims.  A start position where ```` ```sql ```` matches
but no closing fence follows fails, and the scan resumes, exactly as the
backtracking engine does.

For `SELECT .*?;` the lazy body stops at the first `;` after the literal
`SELECT ` (with its trailing space), and the group runs from the `S` to that
`;`; `strip` of the group is the group itself.  In
`SQL query:\s*(SELECT .*?;)` the greedy `\s*` cannot trade characters with
the group, because the group must start with a non-whitespace letter. -/

/-- First `;`-terminated `SELECT` statement starting exactly at `s`
(case-insensitive), the per-position step of the pattern `SELECT .*?;`:
requires the literal `SELECT ` and a later `;`, and captures through the
first such `;`, preserving the original text. -/
def selectSemi (s : List Char) : Option (List Char) :=
  if ciStartsWith (str "select ") s then
    (beforeSub [';'] (s.drop 7)).map (fun mid => s.take (7 + (mid.length + 1)))
  else none

/-- Scanner for ```` ```sql\s*(.*?)\s*``` ````: at each position, match the
opening fence case-insensitively and take the (stripped) text up to the
first closing ```` ``` ````; on failure resume at the next position. -/
def fenceMatch : List Char → Option (List Char)
  | [] => none
  | s@(_ :: t) =>
    if ciStartsWith (str "```sql") s then
      match beforeSub (str "```") (s.drop 6) with
      | some body => some (strip body)
      | none => fenceMatch t
    else fenceMatch t

/-- Scanner for `SQL query:\s*(SELECT .*?;)`: at each position, match the
literal `SQL query:` case-insensitively, skip whitespace, and take the
stripped `SELECT … ;` capture; on failure resume at the next position. -/
def sqlQueryMatch : List Char → Option (List Char)
  | [] => none
  | s@(_ :: t) =>
    if ciStartsWith (str "sql query:") s then
      match selectSemi ((s.drop 10).dropWhile isPySpace) with
      | some cap => some (strip cap)
      | none => sqlQueryMatch t
    else sqlQueryMatch t

/-- Scanner for the bare pattern `(SELECT .*?;)`. -/
def bareSelect : List Char → Option (List Char)
  | [] => none
  | s@(_ :: t) =>
    match selectSemi s with
    | some cap => some (strip cap)
    | none => bareSelect t

/-- Suffix of `s` after the first occurrence of `</think>`, or `none` when
absent; models `text.find("</think>")` followed by the slice. -/
def afterThink : List Char → Option (List Char)
  | [] => none
  | s@(_ :: t) =>
    if (str "</think>").isPrefixOf s then some (s.drop (str "</think>").length)
    else afterThink t

/-- Embedding of `extract_sql_query`: strip a leading think-block, then try
the fenced pattern, the `SQL query:` pattern, the bare `SELECT … ;` pattern,
and finally fall back to the trimmed remaining text. -/
def extract_sql_query (text : List Char) : List Char :=
  let text := (afterThink text).getD text
  match fenceMatch text with
  | some r => r
  | none =>
    match sqlQueryMatch text with
    | some r => r
    | none =>
      match bareSelect text with
      | some r => r
      | none => strip text

/-! ## SchemaCache: `get_cached_schema` (src/src/utils.py lines 182–187)

```python
def get_cached_schema() -> str:
    if "schema_cache" not in st.session_state or st.session_state.schema_cache is None:
        ddl, _ = get_database_metadata()
        st.session_state.schema_cache = ddl
    return st.session_state.schema_cache
```

`get_database_metadata` (src/src/schema_fetch.py) opens its own MySQL
connection with hardcoded default credentials — it never consults the
Streamlit session's `db` handle — and returns `(None, None)` on any failure
instead of raising.  It is modelled as the parameter `fetch`, returning
`some ddl` on success and `none` on failure.  The session state records
whether a `db` handle is active (which `get_cached_schema` never reads) and
the cached schema; a missing `schema_cache` key and a stored `None` are both
modelled as `none`. -/

structure SchemaSessionState where
  dbActive : Bool
  schema_cache : Option (List Char)
deriving DecidableEq, Repr

/-- Embedding of `get_cached_schema`.  Returns the value produced, the
updated session state, and whether introspection was issued on this call. -/
def get_cached_schema (fetch : Unit → Option (List Char)) (st : SchemaSessionState) :
    Option (List Char) × SchemaSessionState × Bool :=
  match st.schema_cache with
  | some ddl => (some ddl, st, false)
  | none =>
    let ddl := fetch ()
    (ddl, { st with schema_cache := ddl }, true)

/-! ## ResultFormatter: `convert_result_to_csv` (src/src/utils.py lines 363–374)

```python
def convert_result_to_csv(result: List[Dict]) -> Optional[bytes]:
    if not result:
        return None
    try:
        df = pd.DataFrame(result)
        output = io.StringIO()
        df.to_csv(output, index=False)
        return output.getvalue().encode('utf-8')
    except Exception ...
```

A result row (a `dict` from the dictionary cursor) is an association list of
column name to cell text, keys in the cursor's column order.
`pd.DataFrame(result)` takes its columns from the keys in order of first
appearance (for rows sharing one key list: the first row's keys) and aligns
every row by key; `to_csv(index=False)` writes one header line and one line
per row, separated by `\n`, quoting a field exactly when it contains the
delimiter, the quote character, or a line-break character (QUOTE_MINIMAL),
doubling embedded quotes.  Cell values are modelled by their rendered text;
the UTF-8 encode step is the identity on the character sequence. -/

/-- A field must be quoted when it contains the delimiter, a quote, or a
line break (csv QUOTE_MINIMAL). -/
def needsQuote (f : List Char) : Bool :=
  f.any (fun c => c == ',' || c == '"' || c == '\n' || c == '\r')

/-- Double every quote character, the csv escape used inside quoted fields. -/
def escapeQuotes : List Char → List Char
  | [] => []
  | '"' :: t => '"' :: '"' :: escapeQuotes t
  | c :: t => c :: escapeQuotes t

/-- Serialize one field, quoting only when needed. -/
def encodeField (f : List Char) : List Char :=
  if needsQuote f then '"' :: (escapeQuotes f ++ ['"']) else f

/-- Comma-join the encoded fields of one record. -/
def joinFields : List (List Char) → List Char
  | [] => []
  | [f] => encodeField f
  | f :: t => encodeField f ++ ',' :: joinFields t

/-- One serialized csv line, with its terminating newline. -/
def encodeLine (row : List (List Char)) : List Char := joinFields row ++ ['\n']

/-- The csv text of a sequence of records. -/
def csvLines : List (List (List Char)) → List Char
  | [] => []
  | r :: rs => encodeLine r ++ csvLines rs

/-- Embedding of `convert_result_to_csv`: `none` on an empty result,
otherwise the csv blob with the first row's keys as header and every row's
cells aligned to that header (`pd.DataFrame` key alignment; an absent key —
impossible for uniform rows — would render as an empty cell). -/
def convert_result_to_csv (result : List (List (List Char × List Char))) :
    Option (List Char) :=
  match result with
  | [] => none
  | row0 :: _ =>
    let headers := row0.map Prod.fst
    some (csvLines (headers ::
      result.map (fun r => headers.map (fun k => (List.lookup k r).getD []))))

/-! ### csv reader, used to state that decoding the blob recovers the rows -/

/-- Read an unquoted field: everything up to the first `,` or `\n`, which is
left in the remainder. -/
def takeUnquoted : List Char → List Char × List Char
  | [] => ([], [])
  | c :: t =>
    if c == ',' || c == '\n' then ([], c :: t)
    else
      let p := takeUnquoted t
      (c :: p.1, p.2)

/-- Read the body of a quoted field (after its opening quote): a doubled
quote is one literal quote, a single quote closes the field. -/
def takeQuoted : List Char → List Char × List Char
  | [] => ([], [])
  | '"' :: '"' :: t =>
    let p := takeQuoted t
    ('"' :: p.1, p.2)
  | '"' :: t => ([], t)
  | c :: t =>
    let p := takeQuoted t
    (c :: p.1, p.2)

/-- Read one field, quoted or not. -/
def parseField : List Char → List Char × List Char
  | '"' :: t => takeQuoted t
  | s => takeUnquoted s

/-- The remainder left by `takeUnquoted` is no longer than the input. -/
theorem takeUnquoted_rest_le (s : List Char) :
    (takeUnquoted s).2.length ≤ s.length := by
  induction s with
  | nil => simp [takeUnquoted]
  | cons c t ih =>
    simp only [takeUnquoted]
    split
    · simp
    · simpa using Nat.le_succ_of_le ih

/-- The remainder left by `takeQuoted` is no longer than the input. -/
theorem takeQuoted_rest_le (s : List Char) :
    (takeQuoted s).2.length ≤ s.length := by
  induction s using takeQuoted.induct with
  | case1 => simp [takeQuoted]
  | case2 t ih => simp only [takeQuoted]; simpa using Nat.le_succ_of_le (Nat.le_succ_of_le ih)
  | case3 t => simp [takeQuoted]
  | case4 c t h h' ih =>
    simp only [takeQuoted]
    simpa using Nat.le_succ_of_le ih

/-- `parseField` on a quoted field delegates to `takeQuoted`. -/
theorem parseField_quote (t : List Char) : parseField ('"' :: t) = takeQuoted t := rfl

/-- `parseField` on anything not opening with a quote delegates to
`takeUnquoted`. -/
theorem parseField_plain {s : List Char} (h : ∀ t, s ≠ '"' :: t) :
    parseField s = takeUnquoted s := by
  rw [parseField.eq_def]
  split
  · rename_i t; exact absurd rfl (h t)
  · rfl

/-- The remainder left by `parseField` is no longer than the input. -/
theorem parseField_rest_le (s : List Char) : (parseField s).2.length ≤ s.length := by
  rw [parseField.eq_def]
  split
  · rename_i t; exact Nat.le_succ_of_le (takeQuoted_rest_le t)
  · exact takeUnquoted_rest_le s

/-- Read the fields of one record, through its terminating `\n` (or the end
of input); returns the cells and the text after the record. -/
def parseLine (s : List Char) : List (List Char) × List Char :=
  match h : parseField s with
  | (f, ',' :: t) =>
    let p := parseLine t
    (f :: p.1, p.2)
  | (f, '\n' :: t) => ([f], t)
  | (f, _) => ([f], [])
termination_by s.length
decreasing_by
  have hle := parseField_rest_le s
  rw [h] at hle
  simp at hle
  omega

/-- Unfolding of `parseLine` when the first field ends at a comma. -/
theorem parseLine_comma {s f t} (h : parseField s = (f, ',' :: t)) :
    parseLine s = (f :: (parseLine t).1, (parseLine t).2) := by
  rw [parseLine]
  split <;> simp_all

/-- Unfolding of `parseLine` when the first field ends at a newline. -/
theorem parseLine_nl {s f t} (h : parseField s = (f, '\n' :: t)) :
    parseLine s = ([f], t) := by
  rw [parseLine]
  split <;> simp_all

/-- Unfolding of `parseLine` when the input ends inside the first field. -/
theorem parseLine_other {s f r} (h : parseField s = (f, r))
    (h1 : ∀ t, r ≠ ',' :: t) (h2 : ∀ t, r ≠ '\n' :: t) :
    parseLine s = ([f], []) := by
  rw [parseLine]
  split
  · rename_i f' t' heq
    rw [h] at heq
    exact absurd (congrArg Prod.snd heq) (h1 t')
  · rename_i f' t' heq
    rw [h] at heq
    exact absurd (congrArg Prod.snd heq) (h2 t')
  · rename_i heq
    rw [h] at heq
    have hf := congrArg Prod.fst heq
    simp only at hf
    rw [hf]

/-- The remainder left by `parseLine` is no longer than the input. -/
theorem parseLine_rest_le (s : List Char) : (parseLine s).2.length ≤ s.length := by
  induction s using parseLine.induct with
  | case1 s f t hf ih =>
    rw [parseLine_comma hf]
    have hle := parseField_rest_le s
    rw [hf] at hle
    simp only [List.length_cons] at hle
    simp only []
    omega
  | case2 s f t hf =>
    rw [parseLine_nl hf]
    have hle := parseField_rest_le s
    rw [hf] at hle
    simp only [List.length_cons] at hle
    simp only []
    omega
  | case3 s f r h1 h2 hf =>
    rw [parseLine_other hf (fun t ht => h1 t ht) (fun t ht => h2 t ht)]
    simp

/-- `parseLine` consumes at least one character of a nonempty input. -/
theorem parseLine_rest_lt {s : List Char} (hs : s ≠ []) :
    (parseLine s).2.length < s.length := by
  have hpos : 0 < s.length := List.length_pos.mpr hs
  rcases hp : parseField s with ⟨f, r⟩
  have hle := parseField_rest_le s
  rw [hp] at hle
  rcases r with _ | ⟨c, t⟩
  · rw [parseLine_other hp (by simp) (by simp)]
    simpa using hpos
  · simp only [List.length_cons] at hle
    by_cases hc : c = ','
    · subst hc
      rw [parseLine_comma hp]
      have h2 := parseLine_rest_le t
      show (parseLine t).2.length < s.length
      omega
    · by_cases hn : c = '\n'
      · subst hn
        rw [parseLine_nl hp]
        show t.length < s.length
        omega
      · rw [parseLine_other hp
          (fun t' ht' => hc ((List.cons_eq_cons.mp ht').1))
          (fun t' ht' => hn ((List.cons_eq_cons.mp ht').1))]
        simpa using hpos

/-- Read every record of a csv text: empty input holds no records; otherwise
one record per line. -/
def parseRecsW : List Char → List (List (List Char))
  | [] => []
  | c :: t => (parseLine (c :: t)).1 :: parseRecsW (parseLine (c :: t)).2
termination_by s => s.length
decreasing_by
  exact parseLine_rest_lt (List.cons_ne_nil _ _)

/-! ## DocumentIngestor / VectorIndex: `ChatPDF` (src/src/pdf_util.py)

```python
def ingest(self, pdf_file_path: str):
    try:
        ... ocrmypdf.ocr(...)  # on failure: fall back to the original file
        try:
            docs = PyPDFLoader(ocr_output_path).load()
        except Exception:
            docs = UnstructuredPDFLoader(ocr_output_path).load()
        if not docs:
            raise ValueError("PDF appears to be empty or unreadable")
        chunks = self.text_splitter.split_documents(docs)
        chunks = filter_complex_metadata(chunks)
        chunks = [chunk for chunk in chunks if chunk.page_content.strip()]
        if not chunks:
            raise ValueError("No valid content found in PDF after processing.")
        self.vector_store = Chroma.from_documents(documents=chunks, ...)
        self.retriever = self.vector_store.as_retriever(...)
        self.chain = ...
        return True
    except Exception as e:
        logging.error(f"Error ingesting PDF: {str(e)}")
        return False

def clear(self):
    self.vector_store = None
    self.retriever = None
    self.chain = None
```

The OCR step plus the loader with its fallback are modelled by one abstract
extraction function `extractDocs` (both extractors recovering nothing is
`extractDocs f = []`); the text splitter together with
`filter_complex_metadata` is the abstract `splitDocs`
(`filter_complex_metadata` only rewrites metadata and keeps the chunk list).
`Chroma.from_documents` builds a store holding exactly the documents passed
to this one call, so `self.vector_store` is `Option (List Chunk)`.  The two
`raise ValueError` sites are caught by the outer `except`, which logs the
message and returns `False`; the result is therefore modelled as
`Option` of the raised message (`none` for a `True` return), and both raises
happen before any assignment to `self.vector_store`. -/

/-- A document chunk: its text and the source it came from. -/
structure Chunk where
  text : List Char
  source : List Char
deriving DecidableEq, Repr

/-- The mutable state of a `ChatPDF` assistant (`retriever` and `chain` are
derived from `vector_store` and carry no further information). -/
structure ChatPDFState where
  vector_store : Option (List Chunk)
deriving DecidableEq, Repr

/-- Embedding of `ChatPDF.clear`. -/
def ChatPDF.clear (_ : ChatPDFState) : ChatPDFState := ⟨none⟩

/-- Embedding of `ChatPDF.ingest` over abstract extractor and splitter;
returns the new state and `none` for success (`return True`) or the message
of the `ValueError` that was logged before `return False`. -/
def ChatPDF.ingest {File Doc : Type} (extractDocs : File → List Doc)
    (splitDocs : List Doc → List Chunk) (st : ChatPDFState) (f : File) :
    ChatPDFState × Option (List Char) :=
  let docs := extractDocs f
  if docs.isEmpty then (st, some (str "PDF appears to be empty or unreadable"))
  else
    let chunks := (splitDocs docs).filter (fun chunk => !(strip chunk.text).isEmpty)
    if chunks.isEmpty then (st, some (str "No valid content found in PDF after processing."))
    else ({ vector_store := some chunks }, none)

/-! ## `handle_pdf_upload` (src/src/app.py lines 320–341)

```python
def handle_pdf_upload(self, uploaded_files):
    if uploaded_files:
        new_files = set(file.name for file in uploaded_files)
        old_files = set(file.name for file in st.session_state.uploaded_files)
        if new_files != old_files:
            st.session_state.pdf_assistant.clear()
            st.session_state.pdf_messages = []
            st.session_state.uploaded_files = uploaded_files
            st.session_state.temp_file_paths = []
            for file in uploaded_files:
                ... st.session_state.pdf_assistant.ingest(file_path)
            st.session_state.pdf_processed = True
            ...
```
-/

/-- The part of the Streamlit session state that `handle_pdf_upload`
touches. -/
structure UploadSessionState where
  pdf_assistant : ChatPDFState
  uploaded_names : List (List Char)
  pdf_processed : Bool
deriving DecidableEq, Repr

/-- Python `set(a) == set(b)` on file-name lists. -/
def sameNameSet (a b : List (List Char)) : Bool :=
  a.all (fun x => b.contains x) && b.all (fun x => a.contains x)

/-- Embedding of `handle_pdf_upload`: on a changed nonempty file set, clear
the assistant and ingest every uploaded file in order. -/
def handle_pdf_upload {File Doc : Type} (extractDocs : File → List Doc)
    (splitDocs : List Doc → List Chunk) (nameOf : File → List Char)
    (st : UploadSessionState) (uploaded_files : List File) : UploadSessionState :=
  if uploaded_files.isEmpty then st
  else
    let newNames := uploaded_files.map nameOf
    if sameNameSet newNames st.uploaded_names then st
    else
      let cleared := ChatPDF.clear st.pdf_assistant
      let ingested := uploaded_files.foldl
        (fun s f => (ChatPDF.ingest extractDocs splitDocs s f).1) cleared
      { pdf_assistant := ingested, uploaded_names := newNames, pdf_processed := true }

/-! ## HybridRouter: the chat branch of `handle_chat` (src/src/app.py 276–318)

```python
if question:
    query_type = classify_query_type(question)
    st.session_state.chat_mode = query_type
    st.chat_message("user").markdown(question)
    st.session_state.chat.append({"role": "user", "content": question})
    ...
    if query_type == "MySQL":
        if "db" not in st.session_state or not st.session_state.db:
            st.error("Please connect to the database first.")
            return
        response, raw_result = get_llm_response(question)
        if st.session_state.user_role == "employee":
            response = handle_restricted_response(question, response)
        st.chat_message("assistant").markdown(response)
        st.session_state.chat.append({"role": "assistant", "content": response})
        ...
    else:
        if not st.session_state.pdf_processed:
            st.error("Please upload and process a PDF first.")
            return
        response = st.session_state.pdf_assistant.ask(question)
        st.chat_message("assistant").markdown(response)
        st.session_state.chat.append({"role": "assistant", "content": response})
        ...
```

`classify_query_type`, `get_llm_response`, `handle_restricted_response` and
`ChatPDF.ask` are external collaborators here (the first and third are
imported names whose definitions are not part of these sources) and are
passed as functions.  None of them touches `st.session_state.chat`: the only
appends to the conversation log are the ones quoted above.
`st.session_state.chat_histories` mirrors `chat` and is omitted. -/

/-- A conversation turn role. -/
inductive ChatRole | user | assistant
deriving DecidableEq, Repr

/-- The part of the Streamlit session state that the chat branch touches. -/
structure ChatSessionState where
  chat : List (ChatRole × List Char)
  dbActive : Bool
  pdf_processed : Bool
  user_role : List Char
deriving DecidableEq, Repr

/-- Embedding of the question-handling branch of `handle_chat`. -/
def handle_chat (classify_query_type : List Char → List Char)
    (get_llm_response : List Char → List Char)
    (handle_restricted_response : List Char → List Char → List Char)
    (ask : List Char → List Char)
    (st : ChatSessionState) (question : List Char) : ChatSessionState :=
  let query_type := classify_query_type question
  let chat1 := st.chat ++ [(ChatRole.user, question)]
  if query_type = str "MySQL" then
    if !st.dbActive then { st with chat := chat1 }
    else
      let response := get_llm_response question
      let response :=
        if st.user_role = str "employee" then handle_restricted_response question response
        else response
      { st with chat := chat1 ++ [(ChatRole.assistant, response)] }
  else
    if !st.pdf_processed then { st with chat := chat1 }
    else { st with chat := chat1 ++ [(ChatRole.assistant, ask question)] }

/-! ## Helper lemmas: characters, substrings, stripping -/

/-- Uppercasing never changes whether a character is whitespace. -/
theorem isPySpace_asciiUpper (c : Char) : isPySpace (asciiUpper c) = isPySpace c := by
  unfold asciiUpper
  split <;> rfl

/-- Only the backtick lowercases to a backtick. -/
theorem asciiLower_eq_backtick {c : Char} (h : asciiLower c = '`') : c = '`' := by
  unfold asciiLower at h
  split at h <;> first | exact h | exact absurd h (by decide)

/-- Only `<` lowercases to `<`. -/
theorem asciiLower_eq_langle {c : Char} (h : asciiLower c = '<') : c = '<' := by
  unfold asciiLower at h
  split at h <;> first | exact h | exact absurd h (by decide)

/-- `containsSub` is substring occurrence. -/
theorem containsSub_infix_iff (pat s : List Char) :
    containsSub pat s = true ↔ pat <:+: s := by
  induction s with
  | nil =>
    simp only [containsSub, List.isEmpty_iff]
    constructor
    · rintro rfl; exact List.infix_refl _
    · exact List.eq_nil_of_infix_nil
  | cons c t ih =>
    simp only [containsSub, Bool.or_eq_true, List.isPrefixOf_iff_prefix, ih,
      List.infix_cons_iff]

/-- `lstrip` is a suffix of the input. -/
theorem lstrip_suffix (s : List Char) : lstrip s <:+ s := List.dropWhile_suffix _

/-- `rstrip` is a prefix of the input. -/
theorem rstrip_prefix_self (s : List Char) : rstrip s <+: s := by
  have h : (s.reverse.dropWhile isPySpace) <:+ s.reverse := List.dropWhile_suffix _
  have h2 := List.reverse_prefix.mpr h
  rwa [List.reverse_reverse] at h2

/-- The stripped string is an infix of the input. -/
theorem strip_infix_self (s : List Char) : strip s <:+: s :=
  List.IsInfix.trans ( List.IsPrefix.isInfix (rstrip_prefix_self (lstrip s)))
    ( List.IsSuffix.isInfix (lstrip_suffix s))

/-- Stripping an all-whitespace string yields the empty string. -/
theorem strip_eq_nil {s : List Char} (h : ∀ c ∈ s, isPySpace c = true) :
    strip s = [] := by
  have hl : lstrip s = [] := List.dropWhile_eq_nil_iff.mpr h
  rw [strip, hl]
  rfl

/-- A nonempty whitespace-free infix survives `lstrip`. -/
theorem infix_lstrip_of {k s : List Char} (hk : k ≠ [])
    (hns : ∀ c ∈ k, isPySpace c = false) (h : k <:+: s) : k <:+: lstrip s := by
  obtain ⟨a, b, rfl⟩ := h
  induction a with
  | nil =>
    rcases k with _ | ⟨c, k'⟩
    · exact absurd rfl hk
    · have hc : isPySpace c = false := hns c (by simp)
      simp only [List.nil_append, lstrip, List.cons_append, List.dropWhile_cons, hc]
      simp only [Bool.false_eq_true, if_false]
      exact List.IsPrefix.isInfix (List.prefix_append (c :: k') b)
  | cons c a' ih =>
    simp only [lstrip, List.cons_append, List.dropWhile_cons]
    split
    · exact ih
    · exact ⟨c :: a', b, by simp⟩

/-- A nonempty whitespace-free infix survives `rstrip`. -/
theorem infix_rstrip_of {k s : List Char} (hk : k ≠ [])
    (hns : ∀ c ∈ k, isPySpace c = false) (h : k <:+: s) : k <:+: rstrip s := by
  have h' : k.reverse <:+: s.reverse := List.reverse_infix.mpr h
  have hk' : k.reverse ≠ [] := by simpa using hk
  have hns' : ∀ c ∈ k.reverse, isPySpace c = false := by
    intro c hc
    exact hns c (List.mem_reverse.mp hc)
  have h2 : k.reverse <:+: lstrip s.reverse := infix_lstrip_of hk' hns' h'
  have h3 : k.reverse <:+: (rstrip s).reverse := by
    rw [rstrip, List.reverse_reverse]
    exact h2
  exact List.reverse_infix.mp (by simpa using h3)

/-- A nonempty whitespace-free infix survives `strip`. -/
theorem infix_strip_of {k s : List Char} (hk : k ≠ [])
    (hns : ∀ c ∈ k, isPySpace c = false) (h : k <:+: s) : k <:+: strip s :=
  infix_rstrip_of hk hns (infix_lstrip_of hk hns h)

/-- `lstrip` commutes with uppercasing. -/
theorem lstrip_map_upper (s : List Char) :
    lstrip (s.map asciiUpper) = (lstrip s).map asciiUpper := by
  rw [lstrip, lstrip, List.dropWhile_map]
  have hf : isPySpace ∘ asciiUpper = isPySpace := funext isPySpace_asciiUpper
  rw [hf]

/-- `rstrip` commutes with uppercasing. -/
theorem rstrip_map_upper (s : List Char) :
    rstrip (s.map asciiUpper) = (rstrip s).map asciiUpper := by
  rw [rstrip, rstrip, ← List.map_reverse, List.dropWhile_map]
  have hf : isPySpace ∘ asciiUpper = isPySpace := funext isPySpace_asciiUpper
  rw [hf, List.map_reverse]

/-- `strip` commutes with uppercasing. -/
theorem strip_map_upper (s : List Char) :
    strip (s.map asciiUpper) = (strip s).map asciiUpper := by
  rw [strip, strip, lstrip_map_upper, rstrip_map_upper]

/-- Every forbidden keyword is nonempty and whitespace-free. -/
theorem forbidden_wf : ∀ k ∈ forbidden, k ≠ [] ∧ ∀ c ∈ k, isPySpace c = false := by
  decide

/-! ## Helper lemmas for the `extract_sql_query` scanners -/

/-- The backtick character (written by code so that the grave accent appears
only inside string literals). -/
def btick : Char := '\x60'

/-- Unfolding of `ciStartsWith` on two conses. -/
theorem ciStartsWith_cons (p c : Char) (ps cs : List Char) :
    ciStartsWith (p :: ps) (c :: cs) = (p == asciiLower c && ciStartsWith ps cs) := rfl

/-- When `</think>` does not occur, `afterThink` finds nothing. -/
theorem afterThink_eq_none {s : List Char}
    (h : containsSub (str "</think>") s = false) : afterThink s = none := by
  induction s with
  | nil => rfl
  | cons c t ih =>
    simp only [containsSub, Bool.or_eq_false_iff] at h
    simp only [afterThink, h.1]
    simp only [Bool.false_eq_true, if_false]
    exact ih h.2

/-- `afterThink` cuts at the first `</think>` when nothing in `a` can start
an occurrence. -/
theorem afterThink_append {a b : List Char} (ha : '<' ∉ a) :
    afterThink (a ++ str "</think>" ++ b) = some b := by
  induction a with
  | nil =>
    have h8 : (str "</think>").length = 8 := rfl
    simp [afterThink, str, h8]
  | cons c a' ih =>
    have hc : c ≠ '<' := fun hcc => ha (hcc ▸ List.mem_cons_self c a')
    have ha' : '<' ∉ a' := fun hm => ha (List.mem_cons_of_mem c hm)
    simp only [List.cons_append, afterThink]
    rw [if_neg]
    · exact ih ha'
    · intro hpre
      have := List.isPrefixOf_iff_prefix.mp hpre
      rcases this with ⟨t, ht⟩
      have : '<' = c := by
        have := congrArg (fun l => l.head?) ht
        simpa [str] using this
      exact hc this.symm

/-- A character other than a backtick cannot open the fence pattern. -/
theorem ciStartsWith_fence_false {c : Char} (cs : List Char) (h : c ≠ btick) :
    ciStartsWith (str "```sql") (c :: cs) = false := by
  rw [show str "```sql" = btick :: str "``sql" from rfl, ciStartsWith_cons]
  have hb : (btick == asciiLower c) = false := by
    rw [beq_eq_false_iff_ne]
    intro heq
    exact h (asciiLower_eq_backtick heq.symm)
  rw [hb, Bool.false_and]

/-- An occurrence of the fence pattern cannot start inside backtick-free
text. -/
theorem ciStartsIn_fence_false {pre rest : List Char} (h : btick ∉ pre) :
    ciStartsIn (str "```sql") pre rest = false := by
  induction pre with
  | nil => rfl
  | cons c p ih =>
    have hc : c ≠ btick := fun hcc => h (hcc ▸ List.mem_cons_self c p)
    have hp : btick ∉ p := fun hm => h (List.mem_cons_of_mem c hm)
    simp only [ciStartsIn, Bool.or_eq_false_iff, List.cons_append]
    exact ⟨ciStartsWith_fence_false _ hc, ih hp⟩

/-- Scanning backtick-free text never matches the fenced pattern. -/
theorem fenceMatch_eq_none {s : List Char} (h : btick ∉ s) :
    fenceMatch s = none := by
  induction s with
  | nil => rfl
  | cons c t ih =>
    have hc : c ≠ btick := fun hcc => h (hcc ▸ List.mem_cons_self c t)
    have ht : btick ∉ t := fun hm => h (List.mem_cons_of_mem c hm)
    simp only [fenceMatch, ciStartsWith_fence_false t hc, Bool.false_eq_true, if_false]
    exact ih ht

/-- The fence scan passes over a region where no occurrence can start. -/
theorem fenceMatch_append {pre rest : List Char}
    (h : ciStartsIn (str "```sql") pre rest = false) :
    fenceMatch (pre ++ rest) = fenceMatch rest := by
  induction pre with
  | nil => rfl
  | cons c p ih =>
    simp only [ciStartsIn, Bool.or_eq_false_iff, List.cons_append] at h
    simp only [List.cons_append, fenceMatch, List.append_eq, h.1, Bool.false_eq_true, if_false]
    exact ih h.2

/-- The `SQL query:` scan passes over a region where no occurrence can
start. -/
theorem sqlQueryMatch_append {pre rest : List Char}
    (h : ciStartsIn (str "sql query:") pre rest = false) :
    sqlQueryMatch (pre ++ rest) = sqlQueryMatch rest := by
  induction pre with
  | nil => rfl
  | cons c p ih =>
    simp only [ciStartsIn, Bool.or_eq_false_iff, List.cons_append] at h
    simp only [List.cons_append, sqlQueryMatch, List.append_eq, h.1, Bool.false_eq_true, if_false]
    exact ih h.2

/-- The bare `SELECT` scan passes over a region where no occurrence can
start. -/
theorem bareSelect_append {pre rest : List Char}
    (h : ciStartsIn (str "select ") pre rest = false) :
    bareSelect (pre ++ rest) = bareSelect rest := by
  induction pre with
  | nil => rfl
  | cons c p ih =>
    simp only [ciStartsIn, Bool.or_eq_false_iff, List.cons_append] at h
    have hsel : selectSemi (c :: (p ++ rest)) = none := by
      unfold selectSemi
      rw [h.1]
      rfl
    simp only [List.cons_append, bareSelect, List.append_eq, hsel]
    exact ih h.2

/-- `beforeSub` finds the boundary occurrence when none can start earlier. -/
theorem beforeSub_boundary {p : Char} {ps body post : List Char} (h : p ∉ body) :
    beforeSub (p :: ps) (body ++ ((p :: ps) ++ post)) = some body := by
  induction body with
  | nil =>
    simp only [List.nil_append, List.cons_append, beforeSub]
    rw [if_pos]
    exact List.isPrefixOf_iff_prefix.mpr ⟨post, by simp⟩
  | cons c b ih =>
    have hc : p ≠ c := fun hcc => h (hcc ▸ List.mem_cons_self c b)
    have hb : p ∉ b := fun hm => h (List.mem_cons_of_mem c hm)
    have hpre : (p :: ps).isPrefixOf (c :: (b ++ (p :: (ps ++ post)))) = false := by
      rw [List.isPrefixOf_cons₂]
      rw [show (p == c) = false from beq_eq_false_iff_ne.mpr hc, Bool.false_and]
    have ih' := ih hb
    simp only [List.cons_append, List.append_eq] at ih'
    simp only [List.cons_append, beforeSub, List.append_eq, hpre, Bool.false_eq_true,
      if_false]
    rw [ih']
    rfl

/-- `beforeSub` finds nothing when the first pattern character is absent. -/
theorem beforeSub_none {p : Char} {ps s : List Char} (h : p ∉ s) :
    beforeSub (p :: ps) s = none := by
  induction s with
  | nil => rfl
  | cons c t ih =>
    have hc : p ≠ c := fun hcc => h (hcc ▸ List.mem_cons_self c t)
    have ht : p ∉ t := fun hm => h (List.mem_cons_of_mem c hm)
    have hpre : (p :: ps).isPrefixOf (c :: t) = false := by
      rw [List.isPrefixOf_cons₂]
      rw [show (p == c) = false from beq_eq_false_iff_ne.mpr hc, Bool.false_and]
    simp only [beforeSub, hpre, Bool.false_eq_true, if_false, ih ht]
    rfl

/-- Stripping fixes a string with non-whitespace first and last characters. -/
theorem strip_eq_self_of {c d : Char} {m : List Char}
    (hc : isPySpace c = false) (hd : isPySpace d = false) :
    strip (c :: (m ++ [d])) = c :: (m ++ [d]) := by
  have hl : lstrip (c :: (m ++ [d])) = c :: (m ++ [d]) := by
    simp [lstrip, List.dropWhile_cons, hc]
  rw [strip, hl, rstrip]
  have hrev : (c :: (m ++ [d])).reverse = d :: (m.reverse ++ [c]) := by simp
  rw [hrev, List.dropWhile_cons, hd]
  simp

/-- The fenced pattern matches at its own opening fence and captures the
stripped text before the first closing fence. -/
theorem fenceMatch_here {body post : List Char} (hb : btick ∉ body) :
    fenceMatch (str "```sql" ++ (body ++ (str "```" ++ post))) = some (strip body) := by
  rw [show str "```sql" ++ (body ++ (str "```" ++ post))
      = btick :: (str "``sql" ++ (body ++ (str "```" ++ post))) from rfl]
  rw [fenceMatch]
  rw [if_pos (by simp [str, ciStartsWith, asciiLower, btick])]
  have hdrop : (btick :: (str "``sql" ++ (body ++ (str "```" ++ post)))).drop 6
      = body ++ (str "```" ++ post) := by
    simp [str]
  rw [hdrop]
  rw [show (str "```" : List Char) = btick :: str "``" from rfl]
  rw [beforeSub_boundary hb]

/-- The `SELECT … ;` step matches at a literal `SELECT ` and captures up to
the first semicolon. -/
theorem selectSemi_here {mid post : List Char} (hm : ';' ∉ mid) :
    selectSemi (str "SELECT " ++ (mid ++ ';' :: post))
      = some (str "SELECT " ++ (mid ++ [';'])) := by
  unfold selectSemi
  rw [if_pos (by simp [str, ciStartsWith, asciiLower])]
  have hdrop : (str "SELECT " ++ (mid ++ ';' :: post)).drop 7 = mid ++ ';' :: post := by
    simp [str]
  rw [hdrop]
  rw [show mid ++ ';' :: post = mid ++ ([';'] ++ post) from by simp]
  rw [show ([';'] : List Char) = ';' :: [] from rfl]
  rw [beforeSub_boundary hm]
  show some ((str "SELECT " ++ (mid ++ ';' :: post)).take (7 + (mid.length + 1)))
      = some (str "SELECT " ++ (mid ++ [';']))
  congr 1
  have h7 : (str "SELECT ").length = 7 := rfl
  rw [show (7 : Nat) + (mid.length + 1) = (str "SELECT ").length + (mid.length + 1) from by
    rw [h7]]
  rw [List.take_append]
  congr 1
  rw [show mid ++ ';' :: post = mid ++ ([';'] ++ post) from by simp, ← List.append_assoc]
  rw [show mid.length + 1 = (mid ++ [';']).length from by simp]
  rw [List.take_left]

/-- `strip` fixes a captured `SELECT … ;` statement. -/
theorem strip_select_capture (mid : List Char) :
    strip (str "SELECT " ++ (mid ++ [';'])) = str "SELECT " ++ (mid ++ [';']) := by
  rw [show str "SELECT " ++ (mid ++ [';'])
      = 'S' :: ((str "ELECT " ++ mid) ++ [';']) from by simp [str]]
  exact strip_eq_self_of (by decide) (by decide)

/-- The `SQL query:` pattern matches at its own literal and captures the
`SELECT … ;` statement after the whitespace. -/
theorem sqlQueryMatch_here {mid post : List Char} (hm : ';' ∉ mid) :
    sqlQueryMatch (str "SQL query: SELECT " ++ (mid ++ ';' :: post))
      = some (str "SELECT " ++ (mid ++ [';'])) := by
  rw [show str "SQL query: SELECT " ++ (mid ++ ';' :: post)
      = 'S' :: (str "QL query: SELECT " ++ (mid ++ ';' :: post)) from rfl]
  rw [sqlQueryMatch]
  rw [if_pos (by simp [str, ciStartsWith, asciiLower])]
  have hdrop : (('S' : Char) :: (str "QL query: SELECT " ++ (mid ++ ';' :: post))).drop 10
      = str " SELECT " ++ (mid ++ ';' :: post) := by
    simp [str]
  rw [hdrop]
  have hws : (str " SELECT " ++ (mid ++ ';' :: post)).dropWhile isPySpace
      = str "SELECT " ++ (mid ++ ';' :: post) := by
    simp [str, List.dropWhile_cons, isPySpace]
  rw [hws, selectSemi_here hm]
  show some (strip (str "SELECT " ++ (mid ++ [';'])))
      = some (str "SELECT " ++ (mid ++ [';']))
  rw [strip_select_capture]

/-- The bare `SELECT` pattern matches at its own literal. -/
theorem bareSelect_here {mid post : List Char} (hm : ';' ∉ mid) :
    bareSelect (str "SELECT " ++ (mid ++ ';' :: post))
      = some (str "SELECT " ++ (mid ++ [';'])) := by
  rw [show str "SELECT " ++ (mid ++ ';' :: post)
      = 'S' :: (str "ELECT " ++ (mid ++ ';' :: post)) from rfl]
  rw [bareSelect]
  have hsel := @selectSemi_here mid post hm
  rw [show str "SELECT " ++ (mid ++ ';' :: post)
      = 'S' :: (str "ELECT " ++ (mid ++ ';' :: post)) from rfl] at hsel
  rw [hsel]
  show some (strip (str "SELECT " ++ (mid ++ [';'])))
      = some (str "SELECT " ++ (mid ++ [';']))
  rw [strip_select_capture]

/-- Without a semicolon anywhere, the `SELECT … ;` step cannot match. -/
theorem selectSemi_none {s : List Char} (h : ';' ∉ s) : selectSemi s = none := by
  unfold selectSemi
  split
  · rw [beforeSub_none (fun hm => h (List.drop_subset _ _ hm))]
    rfl
  · rfl

/-- Without a semicolon anywhere, the `SQL query:` scan finds nothing. -/
theorem sqlQueryMatch_none_semi {s : List Char} (h : ';' ∉ s) :
    sqlQueryMatch s = none := by
  induction s with
  | nil => rfl
  | cons c t ih =>
    have ht : ';' ∉ t := fun hm => h (List.mem_cons_of_mem c hm)
    have hsem : ';' ∉ ((c :: t).drop 10).dropWhile isPySpace := by
      intro hm
      exact h (List.drop_subset 10 (c :: t) ((List.dropWhile_suffix isPySpace).subset hm))
    rw [sqlQueryMatch]
    split
    · rw [selectSemi_none hsem]
      exact ih ht
    · exact ih ht

/-- Without a semicolon anywhere, the bare `SELECT` scan finds nothing. -/
theorem bareSelect_none_semi {s : List Char} (h : ';' ∉ s) :
    bareSelect s = none := by
  induction s with
  | nil => rfl
  | cons c t ih =>
    have ht : ';' ∉ t := fun hm => h (List.mem_cons_of_mem c hm)
    rw [bareSelect, selectSemi_none h]
    exact ih ht

/-- When no case-insensitive occurrence of `sql query:` exists, the scan
finds nothing. -/
theorem sqlQueryMatch_none_occur {s : List Char}
    (h : ciHasOccur (str "sql query:") s = false) : sqlQueryMatch s = none := by
  induction s with
  | nil => rfl
  | cons c t ih =>
    simp only [ciHasOccur, Bool.or_eq_false_iff] at h
    rw [sqlQueryMatch]
    rw [if_neg (by simp [h.1])]
    exact ih h.2

/-! ## Helper lemmas for the csv writer/reader round trip -/

/-- An unquoted read stops exactly at the delimiter that follows a field
free of delimiters. -/
theorem takeUnquoted_boundary {f : List Char} {d : Char} {r : List Char}
    (hf1 : ',' ∉ f) (hf2 : '\n' ∉ f) (hd : d = ',' ∨ d = '\n') :
    takeUnquoted (f ++ d :: r) = (f, d :: r) := by
  induction f with
  | nil =>
    simp only [List.nil_append, takeUnquoted]
    rw [if_pos]
    rcases hd with rfl | rfl <;> simp
  | cons c t ih =>
    have hc1 : c ≠ ',' := fun hcc => hf1 (hcc ▸ List.mem_cons_self c t)
    have hc2 : c ≠ '\n' := fun hcc => hf2 (hcc ▸ List.mem_cons_self c t)
    have ht1 : ',' ∉ t := fun hm => hf1 (List.mem_cons_of_mem c hm)
    have ht2 : '\n' ∉ t := fun hm => hf2 (List.mem_cons_of_mem c hm)
    have ih' := ih ht1 ht2
    simp only [List.cons_append, takeUnquoted, List.append_eq]
    rw [if_neg (by simp [hc1, hc2])]
    simp only [List.append_eq] at ih'
    rw [ih']

/-- A quote that is not doubled closes the quoted field. -/
theorem takeQuoted_close {r : List Char} (hr : ∀ t, r ≠ '"' :: t) :
    takeQuoted ('"' :: r) = ([], r) := by
  rcases r with _ | ⟨c, t⟩
  · rfl
  · have hc : c ≠ '"' := fun hcc => hr t (by rw [hcc])
    rw [takeQuoted.eq_def]
    split <;> simp_all
    rename_i hx heq
    exact hx heq.1.symm

/-- Inside a quoted field, an ordinary character is consumed literally. -/
theorem takeQuoted_cons_ne {c : Char} {s : List Char} (hc : c ≠ '"') :
    takeQuoted (c :: s) = (c :: (takeQuoted s).1, (takeQuoted s).2) := by
  rw [takeQuoted.eq_def]
  split <;> simp_all

/-- A quoted read undoes quote doubling and stops at the closing quote,
provided the text after the field does not begin with another quote. -/
theorem takeQuoted_escape {f r : List Char} (hr : ∀ t, r ≠ '"' :: t) :
    takeQuoted (escapeQuotes f ++ '"' :: r) = (f, r) := by
  induction f with
  | nil =>
    show takeQuoted ('"' :: r) = ([], r)
    exact takeQuoted_close hr
  | cons c t ih =>
    by_cases hc : c = '"'
    · subst hc
      show takeQuoted ('"' :: '"' :: (escapeQuotes t ++ '"' :: r)) = ('"' :: t, r)
      rw [takeQuoted]
      rw [ih]
    · have hesc : escapeQuotes (c :: t) = c :: escapeQuotes t := by
        rw [escapeQuotes.eq_def]
        split <;> simp_all
      rw [hesc, List.cons_append, takeQuoted_cons_ne hc, ih]

/-- `needsQuote f = false` yields the four absent characters. -/
theorem needsQuote_false {f : List Char} (h : needsQuote f = false) :
    ',' ∉ f ∧ '"' ∉ f ∧ '\n' ∉ f ∧ '\r' ∉ f := by
  simp only [needsQuote, List.any_eq_false, Bool.or_eq_false_iff] at h
  refine ⟨fun hm => ?_, fun hm => ?_, fun hm => ?_, fun hm => ?_⟩
  · simpa using h ',' hm
  · simpa using h '"' hm
  · simpa using h '\n' hm
  · simpa using h '\r' hm

/-- Reading back one encoded field stops exactly at the following
delimiter. -/
theorem parseField_boundary {f : List Char} {d : Char} {r : List Char}
    (hd : d = ',' ∨ d = '\n') :
    parseField (encodeField f ++ d :: r) = (f, d :: r) := by
  by_cases hq : needsQuote f
  · rw [encodeField, if_pos hq]
    show parseField ('"' :: (escapeQuotes f ++ ['"'] ++ d :: r)) = (f, d :: r)
    rw [parseField_quote]
    rw [List.append_assoc]
    rw [show (['"'] : List Char) ++ d :: r = '"' :: d :: r from rfl]
    exact takeQuoted_escape (fun t ht => by
      rcases hd with rfl | rfl <;> simp at ht)
  · have hq' : needsQuote f = false := by simpa using hq
    obtain ⟨h1, h2, h3, _⟩ := needsQuote_false hq'
    rw [encodeField, if_neg hq]
    have hplain : ∀ t, f ++ d :: r ≠ '"' :: t := by
      intro t ht
      rcases f with _ | ⟨c, f'⟩
      · rcases hd with rfl | rfl <;> simp at ht
      · have : c = '"' := by injection ht
        exact h2 (this ▸ List.mem_cons_self c f')
    rw [parseField_plain hplain]
    exact takeUnquoted_boundary h1 h3 hd

/-- Unfolding of `joinFields` on two or more fields. -/
theorem joinFields_cons₂ (f g : List Char) (t : List (List Char)) :
    joinFields (f :: g :: t) = encodeField f ++ ',' :: joinFields (g :: t) := by
  rw [joinFields]
  simp

/-- Reading back one encoded line recovers its cells and leaves the rest. -/
theorem parseLine_encodeLine {cells : List (List Char)} {rest : List Char}
    (hc : cells ≠ []) :
    parseLine (joinFields cells ++ '\n' :: rest) = (cells, rest) := by
  induction cells with
  | nil => exact absurd rfl hc
  | cons f t ih =>
    rcases t with _ | ⟨g, t'⟩
    · show parseLine (encodeField f ++ '\n' :: rest) = ([f], rest)
      exact parseLine_nl (parseField_boundary (Or.inr rfl))
    · rw [joinFields_cons₂, List.append_assoc]
      rw [show (',' :: joinFields (g :: t')) ++ '\n' :: rest
          = ',' :: (joinFields (g :: t') ++ '\n' :: rest) from rfl]
      rw [parseLine_comma (parseField_boundary (Or.inl rfl))]
      rw [ih (by simp)]

/-- Unfolding of `parseRecsW` on nonempty input. -/
theorem parseRecsW_ne_nil {s : List Char} (h : s ≠ []) :
    parseRecsW s = (parseLine s).1 :: parseRecsW (parseLine s).2 := by
  rcases s with _ | ⟨c, t⟩
  · exact absurd rfl h
  · rw [parseRecsW]

/-- Reading back a whole csv text recovers every record. -/
theorem parseRecsW_csvLines {table : List (List (List Char))}
    (h : ∀ row ∈ table, row ≠ []) :
    parseRecsW (csvLines table) = table := by
  induction table with
  | nil =>
    show parseRecsW [] = []
    rw [parseRecsW]
  | cons row rows ih =>
    have hrow : row ≠ [] := h row (List.mem_cons_self row rows)
    have hrows : ∀ r ∈ rows, r ≠ [] := fun r hr => h r (List.mem_cons_of_mem row hr)
    rw [csvLines, encodeLine, List.append_assoc]
    rw [show (['\n'] : List Char) ++ csvLines rows = '\n' :: csvLines rows from rfl]
    have hne : joinFields row ++ '\n' :: csvLines rows ≠ [] := by
      rcases joinFields row with _ | _ <;> simp
    rw [parseRecsW_ne_nil hne, parseLine_encodeLine hrow]
    rw [ih hrows]

/-- Aligning a record by its own keys recovers its values, when the keys are
distinct. -/
theorem lookup_align {r : List (List Char × List Char)}
    (hnd : (r.map Prod.fst).Nodup) :
    (r.map Prod.fst).map (fun k => (List.lookup k r).getD []) = r.map Prod.snd := by
  induction r with
  | nil => rfl
  | cons kv r' ih =>
    obtain ⟨k, v⟩ := kv
    simp only [List.map_cons, List.nodup_cons] at hnd
    obtain ⟨hk, hnd'⟩ := hnd
    simp only [List.map_cons]
    congr 1
    · simp [List.lookup]
    · rw [← ih hnd']
      apply List.map_congr_left
      intro k' hk'
      have hne : (k' == k) = false :=
        beq_eq_false_iff_ne.mpr (fun hkk => hk (hkk ▸ hk'))
      simp [List.lookup, hne]

/-- Containment of a nonempty whitespace-free keyword is unaffected by
stripping before uppercasing. -/
theorem contains_upper_strip {k q : List Char} (hk : k ≠ [])
    (hns : ∀ c ∈ k, isPySpace c = false) :
    containsSub k ((strip q).map asciiUpper) = containsSub k (q.map asciiUpper) := by
  have hiff : containsSub k ((strip q).map asciiUpper) = true
      ↔ containsSub k (q.map asciiUpper) = true := by
    rw [containsSub_infix_iff, containsSub_infix_iff, ← strip_map_upper]
    constructor
    · exact fun h => h.trans (strip_infix_self _)
    · exact fun h => infix_strip_of hk hns h
  cases hb2 : containsSub k ((strip q).map asciiUpper) <;>
    cases hb : containsSub k (q.map asciiUpper) <;> simp_all

/-! ## Claim theorems -/

/-- Claim C1: `validate_query` applies its first three rules in order and
short-circuits on the first failure: whitespace-only input is rejected as
empty; otherwise any input whose uppercased text contains a forbidden
keyword anywhere is rejected with a reason naming that keyword; otherwise
any input that does not begin with `SELECT` after trimming and uppercasing
is rejected with the only-SELECT reason; and every remaining input is
accepted. -/
theorem C1_validate_query_rule_order (q : List Char) :
    ((∀ c ∈ q, isPySpace c = true) → validate_query q = (false, str "Empty query"))
    ∧ ((strip q).map asciiUpper ≠ [] →
        ((∃ k ∈ forbidden, containsSub k (q.map asciiUpper) = true) →
          ∃ k ∈ forbidden, containsSub k (q.map asciiUpper) = true ∧
            validate_query q = (false, str "Query contains forbidden keyword: " ++ k))
        ∧ ((∀ k ∈ forbidden, containsSub k (q.map asciiUpper) = false) →
            ((str "SELECT").isPrefixOf ((strip q).map asciiUpper) = false →
              validate_query q
                = (false, str "Only SELECT queries are allowed in this demo"))
            ∧ ((str "SELECT").isPrefixOf ((strip q).map asciiUpper) = true →
              validate_query q = (true, [])))) := by
  refine ⟨?_, fun hne => ⟨?_, fun hnone => ⟨?_, ?_⟩⟩⟩
  · intro hws
    have hs : strip q = [] := strip_eq_nil hws
    simp [validate_query, hs]
  · rintro ⟨k, hkmem, hkcont⟩
    have hwf := forbidden_wf k hkmem
    have hku : containsSub k ((strip q).map asciiUpper) = true := by
      rw [contains_upper_strip hwf.1 hwf.2]
      exact hkcont
    rcases hf : forbidden.find? (fun kw => containsSub kw ((strip q).map asciiUpper))
      with _ | k₀
    · exact absurd hku (by simpa using List.find?_eq_none.mp hf k hkmem)
    · have hk₀mem := List.mem_of_find?_eq_some hf
      have hk₀p := List.find?_some hf
      have hwf₀ := forbidden_wf k₀ hk₀mem
      refine ⟨k₀, hk₀mem, ?_, ?_⟩
      · rw [← contains_upper_strip hwf₀.1 hwf₀.2]
        exact hk₀p
      · have hemp : ((strip q).map asciiUpper).isEmpty = false := by
          simpa [List.isEmpty_iff] using hne
        simp [validate_query, hemp, hf]
  · intro hsel
    have hf : forbidden.find? (fun kw => containsSub kw ((strip q).map asciiUpper))
        = none := by
      refine List.find?_eq_none.mpr (fun k hk hcon => ?_)
      rw [contains_upper_strip (forbidden_wf k hk).1 (forbidden_wf k hk).2] at hcon
      simp [hnone k hk] at hcon
    have hemp : ((strip q).map asciiUpper).isEmpty = false := by
      simpa [List.isEmpty_iff] using hne
    simp [validate_query, hemp, hf, hsel]
  · intro hsel
    have hf : forbidden.find? (fun kw => containsSub kw ((strip q).map asciiUpper))
        = none := by
      refine List.find?_eq_none.mpr (fun k hk hcon => ?_)
      rw [contains_upper_strip (forbidden_wf k hk).1 (forbidden_wf k hk).2] at hcon
      simp [hnone k hk] at hcon
    have hemp : ((strip q).map asciiUpper).isEmpty = false := by
      simpa [List.isEmpty_iff] using hne
    simp [validate_query, hemp, hf, hsel]

/-- Witness for claim C1 at four concrete inputs, one per rule. -/
theorem C1_validate_query_rule_order_witness :
    validate_query (str " \t ") = (false, str "Empty query")
    ∧ (∃ k ∈ forbidden, containsSub k ((str "drop table t").map asciiUpper) = true ∧
        validate_query (str "drop table t")
          = (false, str "Query contains forbidden keyword: " ++ k))
    ∧ validate_query (str "update t set a = 1")
        = (false, str "Only SELECT queries are allowed in this demo")
    ∧ validate_query (str " select 1 ") = (true, []) :=
  ⟨(C1_validate_query_rule_order (str " \t ")).1 (by decide),
   ((C1_validate_query_rule_order (str "drop table t")).2 (by decide)).1 (by decide),
   (((C1_validate_query_rule_order (str "update t set a = 1")).2 (by decide)).2
     (by decide)).1 (by decide),
   (((C1_validate_query_rule_order (str " select 1 ")).2 (by decide)).2
     (by decide)).2 (by decide)⟩

/-- Counterexample to claim C2: `validate_query` takes no role and applies
no column restriction — a `SELECT` projecting `salary` is Allowed, where the
claim requires Rejected for every role whose restricted set contains
`salary`. -/
theorem C2_validate_query_ignores_role_counterexample :
    validate_query (str "SELECT salary FROM employees;") = (true, []) := by decide

/-- Claim C2 amended: validation takes only the SQL string — no role — and
allows a `SELECT` projecting `salary` exactly as it allows the same query
with `salary` removed; no rejection reason ever names a restricted column
or a role. -/
theorem C2_validate_query_ignores_role_amended :
    validate_query (str "SELECT salary FROM employees;") = (true, [])
    ∧ validate_query (str "SELECT name FROM employees;") = (true, []) := by decide

/-- Claim C10: the forbidden-keyword check is substring-based rather than
token-based: a well-formed `SELECT` query whose only occurrence of `DROP` is
inside the longer identifier `dropped_at` is Rejected with the `DROP`
reason, although `DROP` does not occur as a standalone token. -/
theorem C10_substring_keyword_rejection :
    validate_query (str "SELECT dropped_at FROM events;")
      = (false, str "Query contains forbidden keyword: DROP")
    ∧ str "DROP" ∉ tokenize ((str "SELECT dropped_at FROM events;").map asciiUpper)
    ∧ str "SELECT" ∈ tokenize ((str "SELECT dropped_at FROM events;").map asciiUpper) := by
  decide

/-- Claim C3: `run_query` returns rows only when validation allowed the
statement and the driver succeeded; a rejected statement yields no rows, an
error embedding the rejection reason, and no statement sent to the driver;
and a driver failure yields no rows with the driver error surfaced. -/
theorem C3_run_query_soundness {ρ : Type}
    (db : Option (List Char → Except (List Char) (List ρ))) (q : List Char) :
    ((run_query db q).1 ≠ none →
      (validate_query q).1 = true ∧ (run_query db q).2.1 = none)
    ∧ ((validate_query q).1 = false →
        (run_query db q).1 = none
        ∧ (run_query db q).2.1 = some (str "Invalid query: " ++ (validate_query q).2)
        ∧ (run_query db q).2.2 = [])
    ∧ (∀ driver, db = some driver → (validate_query q).1 = true →
        ∀ e, driver q = Except.error e →
          (run_query db q).1 = none
          ∧ (run_query db q).2.1 = some (str "❌ Error executing query: " ++ e)) := by
  refine ⟨?_, ?_, ?_⟩
  · intro hrows
    by_cases hv : (validate_query q).1 = false
    · exact absurd (by simp [run_query, hv]) hrows
    · have hv' : (validate_query q).1 = true := by
        cases h : (validate_query q).1
        · exact absurd h hv
        · rfl
      rcases db with _ | driver
      · exact absurd (by simp [run_query, hv']) hrows
      · rcases hd : driver q with e | rows
        · exact absurd (by simp [run_query, hv', hd]) hrows
        · exact ⟨hv', by simp [run_query, hv', hd]⟩
  · intro hv
    simp [run_query, hv]
  · rintro driver rfl hv e he
    simp [run_query, hv, he]

/-- Witness for claim C3: a rejected statement never reaches the driver, and
a driver failure is surfaced with no rows. -/
theorem C3_run_query_soundness_witness :
    ((run_query (some fun _ => Except.error (str "server gone"))
        (str "DELETE FROM t") : Option (List Nat) × _).1 = none
      ∧ (run_query (some fun _ => Except.error (str "server gone"))
          (str "DELETE FROM t") : Option (List Nat) × _).2.1
        = some (str "Invalid query: "
            ++ (validate_query (str "DELETE FROM t")).2)
      ∧ (run_query (some fun _ => Except.error (str "server gone"))
          (str "DELETE FROM t") : Option (List Nat) × _).2.2 = [])
    ∧ ((run_query (some fun _ => Except.error (str "server gone"))
        (str "SELECT 1") : Option (List Nat) × _).1 = none
      ∧ (run_query (some fun _ => Except.error (str "server gone"))
          (str "SELECT 1") : Option (List Nat) × _).2.1
        = some (str "❌ Error executing query: " ++ str "server gone")) :=
  ⟨(C3_run_query_soundness (some fun _ => Except.error (str "server gone"))
      (str "DELETE FROM t")).2.1 (by decide),
   (C3_run_query_soundness (some fun _ => Except.error (str "server gone"))
      (str "SELECT 1")).2.2 _ rfl (by decide) (str "server gone") rfl⟩

/-- Claim C6: when the classifier answers `MySQL` and a database session is
active, one pass through the chat handler appends exactly one user turn and
then exactly one assistant turn to the conversation log; in every other
outcome it appends the user turn and at most one assistant turn. -/
theorem C6_handle_chat_turns (classify_query_type get_llm_response : List Char → List Char)
    (handle_restricted_response : List Char → List Char → List Char)
    (ask : List Char → List Char) (st : ChatSessionState) (question : List Char) :
    (classify_query_type question = str "MySQL" → st.dbActive = true →
      ∃ r, (handle_chat classify_query_type get_llm_response
            handle_restricted_response ask st question).chat
        = st.chat ++ [(ChatRole.user, question), (ChatRole.assistant, r)])
    ∧ (¬(classify_query_type question = str "MySQL" ∧ st.dbActive = true) →
        (handle_chat classify_query_type get_llm_response
            handle_restricted_response ask st question).chat
          = st.chat ++ [(ChatRole.user, question)]
        ∨ ∃ r, (handle_chat classify_query_type get_llm_response
            handle_restricted_response ask st question).chat
          = st.chat ++ [(ChatRole.user, question), (ChatRole.assistant, r)]) := by
  constructor
  · intro hcls hdb
    refine ⟨if st.user_role = str "employee"
        then handle_restricted_response question (get_llm_response question)
        else get_llm_response question, ?_⟩
    simp [handle_chat, hcls, hdb]
  · intro hno
    by_cases hcls : classify_query_type question = str "MySQL"
    · have hdb : st.dbActive = false := by
        cases h : st.dbActive
        · rfl
        · exact absurd ⟨hcls, h⟩ hno
      left
      simp [handle_chat, hcls, hdb]
    · by_cases hpdf : st.pdf_processed
      · right
        exact ⟨ask question, by simp [handle_chat, hcls, hpdf]⟩
      · left
        simp [handle_chat, hcls, hpdf]

/-- Witness for claim C6: a structured question with an active session adds
the user turn and one assistant turn; a structured question without a
session adds only the user turn. -/
theorem C6_handle_chat_turns_witness :
    (∃ r, (handle_chat (fun _ => str "MySQL") (fun _ => str "42")
        (fun _ r => r) (fun _ => str "doc")
        ⟨[], true, false, str "hr"⟩ (str "How many employees are there?")).chat
      = [] ++ [(ChatRole.user, str "How many employees are there?"),
               (ChatRole.assistant, r)])
    ∧ ((handle_chat (fun _ => str "MySQL") (fun _ => str "42")
        (fun _ r => r) (fun _ => str "doc")
        ⟨[], false, false, str "hr"⟩ (str "How many employees are there?")).chat
      = [] ++ [(ChatRole.user, str "How many employees are there?")]
      ∨ ∃ r, (handle_chat (fun _ => str "MySQL") (fun _ => str "42")
          (fun _ r => r) (fun _ => str "doc")
          ⟨[], false, false, str "hr"⟩ (str "How many employees are there?")).chat
        = [] ++ [(ChatRole.user, str "How many employees are there?"),
                 (ChatRole.assistant, r)]) :=
  ⟨(C6_handle_chat_turns (fun _ => str "MySQL") (fun _ => str "42")
      (fun _ r => r) (fun _ => str "doc")
      ⟨[], true, false, str "hr"⟩ (str "How many employees are there?")).1 rfl rfl,
   (C6_handle_chat_turns (fun _ => str "MySQL") (fun _ => str "42")
      (fun _ r => r) (fun _ => str "doc")
      ⟨[], false, false, str "hr"⟩ (str "How many employees are there?")).2
     (fun h => by simpa using h.2)⟩

/-- Counterexample to claim C8: with no active database session
(`dbActive = false`) and an empty cache, `get_cached_schema` does not fail
with a connection error — it happily returns the DDL that the introspection
helper fetched over its own hardcoded connection. -/
theorem C8_get_cached_schema_no_session_check_counterexample :
    get_cached_schema (fun _ => some (str "CREATE TABLE t (x INT)"))
        ⟨false, none⟩
      = (some (str "CREATE TABLE t (x INT)"),
         ⟨false, some (str "CREATE TABLE t (x INT)")⟩, true) := rfl

/-- Claim C8 amended: `get_cached_schema` performs no session check; on a
cache hit it returns the snapshot without introspection; on a miss it
introspects exactly once and stores the result, so that a later call after
a successful fetch is served from the cache without introspection; a failed
fetch stores nothing, and the next call introspects again. -/
theorem C8_get_cached_schema_amended (fetch : Unit → Option (List Char))
    (st : SchemaSessionState) :
    (∀ ddl, st.schema_cache = some ddl →
      get_cached_schema fetch st = (some ddl, st, false))
    ∧ (st.schema_cache = none →
        get_cached_schema fetch st
          = (fetch (), { st with schema_cache := fetch () }, true))
    ∧ (st.schema_cache = none → ∀ ddl, fetch () = some ddl →
        get_cached_schema fetch ((get_cached_schema fetch st).2.1)
          = (some ddl, (get_cached_schema fetch st).2.1, false))
    ∧ (st.schema_cache = none → fetch () = none →
        (get_cached_schema fetch ((get_cached_schema fetch st).2.1)).2.2 = true) := by
  refine ⟨?_, ?_, ?_, ?_⟩
  · intro ddl hc
    simp [get_cached_schema, hc]
  · intro hc
    simp [get_cached_schema, hc]
  · intro hc ddl hf
    simp [get_cached_schema, hc, hf]
  · intro hc hf
    simp [get_cached_schema, hc, hf]

/-- Witness for claim C8 (amended): a hit is served from the cache, a miss
introspects and stores, the second call after a successful miss does not
introspect, and after a failed fetch the next call introspects again. -/
theorem C8_get_cached_schema_amended_witness :
    get_cached_schema (fun _ => some (str "D2")) ⟨true, some (str "D1")⟩
      = (some (str "D1"), ⟨true, some (str "D1")⟩, false)
    ∧ get_cached_schema (fun _ => some (str "D2")) ⟨true, none⟩
      = (some (str "D2"), ⟨true, some (str "D2")⟩, true)
    ∧ get_cached_schema (fun _ => some (str "D2"))
        ((get_cached_schema (fun _ => some (str "D2")) ⟨true, none⟩).2.1)
      = (some (str "D2"),
         (get_cached_schema (fun _ => some (str "D2")) ⟨true, none⟩).2.1, false)
    ∧ (get_cached_schema (fun _ => none)
        ((get_cached_schema (fun _ => none) ⟨true, none⟩).2.1)).2.2 = true :=
  ⟨(C8_get_cached_schema_amended (fun _ => some (str "D2")) ⟨true, some (str "D1")⟩).1
      (str "D1") rfl,
   (C8_get_cached_schema_amended (fun _ => some (str "D2")) ⟨true, none⟩).2.1 rfl,
   (C8_get_cached_schema_amended (fun _ => some (str "D2")) ⟨true, none⟩).2.2.1 rfl
      (str "D2") rfl,
   (C8_get_cached_schema_amended (fun _ => none) ⟨true, none⟩).2.2.2 rfl rfl⟩

/-- Claim C9: ingesting a document from which the extractors recover no text
fails with the empty-document error, and one whose recovered text yields
zero non-whitespace chunks fails with the no-content error; in both cases
the assistant state — in particular the index — is returned unchanged. -/
theorem C9_ingest_failure_modes {File Doc : Type} (extractDocs : File → List Doc)
    (splitDocs : List Doc → List Chunk) (st : ChatPDFState) (f : File) :
    (extractDocs f = [] →
      ChatPDF.ingest extractDocs splitDocs st f
        = (st, some (str "PDF appears to be empty or unreadable")))
    ∧ (extractDocs f ≠ [] →
        (splitDocs (extractDocs f)).filter
            (fun chunk => !(strip chunk.text).isEmpty) = [] →
        ChatPDF.ingest extractDocs splitDocs st f
          = (st, some (str "No valid content found in PDF after processing."))) := by
  constructor
  · intro he
    simp [ChatPDF.ingest, he]
  · intro he hf
    have he' : (extractDocs f).isEmpty = false := by
      simpa [List.isEmpty_iff] using he
    simp [ChatPDF.ingest, he', hf]

/-- Witness for claim C9: a document with no recoverable text fails as
empty, and one whose only chunk is whitespace fails as no-content; the state
is unchanged in both runs. -/
theorem C9_ingest_failure_modes_witness :
    ChatPDF.ingest (fun _ : Nat => ([] : List Nat)) (fun _ => [])
        ⟨some [⟨str "old", str "o.pdf"⟩]⟩ 0
      = (⟨some [⟨str "old", str "o.pdf"⟩]⟩,
         some (str "PDF appears to be empty or unreadable"))
    ∧ ChatPDF.ingest (fun _ : Nat => [0]) (fun _ => [⟨str "  ", str "w.pdf"⟩])
        ⟨some [⟨str "old", str "o.pdf"⟩]⟩ 0
      = (⟨some [⟨str "old", str "o.pdf"⟩]⟩,
         some (str "No valid content found in PDF after processing.")) :=
  ⟨(C9_ingest_failure_modes (fun _ : Nat => ([] : List Nat)) (fun _ => [])
      ⟨some [⟨str "old", str "o.pdf"⟩]⟩ 0).1 rfl,
   (C9_ingest_failure_modes (fun _ : Nat => [0])
      (fun _ => [⟨str "  ", str "w.pdf"⟩])
      ⟨some [⟨str "old", str "o.pdf"⟩]⟩ 0).2 (by decide) (by decide)⟩

/-- Claim C5 failing run: uploading the two-file set `a.pdf, b.pdf` (each
with nonempty distinct content) rebuilds the index, yet the resulting store
holds only `b.pdf`'s chunks — each `ingest` call replaces the whole store —
while ingesting `a.pdf` alone shows it does produce a chunk.  This
contradicts the claim that the corpus after a rebuild contains chunks from
every file of the new set. -/
theorem C5_rebuild_drops_all_but_last_file :
    (handle_pdf_upload (fun f : Nat => [f])
        (fun ds => ds.map (fun d => if d = 0 then ⟨str "alpha", str "a.pdf"⟩
                                    else ⟨str "beta", str "b.pdf"⟩))
        (fun f => if f = 0 then str "a.pdf" else str "b.pdf")
        ⟨⟨none⟩, [], false⟩ [0, 1]).pdf_assistant.vector_store
      = some [⟨str "beta", str "b.pdf"⟩]
    ∧ ChatPDF.ingest (fun f : Nat => [f])
        (fun ds => ds.map (fun d => if d = 0 then ⟨str "alpha", str "a.pdf"⟩
                                    else ⟨str "beta", str "b.pdf"⟩)) ⟨none⟩ 0
      = (⟨some [⟨str "alpha", str "a.pdf"⟩]⟩, none)
    ∧ Chunk.mk (str "alpha") (str "a.pdf")
        ∉ ((handle_pdf_upload (fun f : Nat => [f])
            (fun ds => ds.map (fun d => if d = 0 then ⟨str "alpha", str "a.pdf"⟩
                                        else ⟨str "beta", str "b.pdf"⟩))
            (fun f => if f = 0 then str "a.pdf" else str "b.pdf")
            ⟨⟨none⟩, [], false⟩ [0, 1]).pdf_assistant.vector_store.getD []) := by
  decide

/-- Claim C4: after stripping a leading think-block, `extract_sql_query`
applies its ordered fallback chain — a fenced `sql` block yields exactly the
trimmed block contents; failing that, a `SQL query:`-prefixed statement
yields the trimmed `SELECT … ;` capture; failing that, a bare `SELECT … ;`
substring yields that trimmed statement; and with no SQL-shaped text at all
the trimmed remaining text is returned. -/
theorem C4_extract_sql_query_fallback_chain :
    (∀ pre body post,
      containsSub (str "</think>")
          (pre ++ (str "```sql" ++ (body ++ (str "```" ++ post)))) = false →
      btick ∉ pre → btick ∉ body →
      extract_sql_query (pre ++ (str "```sql" ++ (body ++ (str "```" ++ post))))
        = strip body)
    ∧ (∀ pre mid post,
      containsSub (str "</think>")
          (pre ++ (str "SQL query: SELECT " ++ (mid ++ ';' :: post))) = false →
      btick ∉ pre ++ (str "SQL query: SELECT " ++ (mid ++ ';' :: post)) →
      ciStartsIn (str "sql query:") pre
          (str "SQL query: SELECT " ++ (mid ++ ';' :: post)) = false →
      ';' ∉ mid →
      extract_sql_query (pre ++ (str "SQL query: SELECT " ++ (mid ++ ';' :: post)))
        = str "SELECT " ++ (mid ++ [';']))
    ∧ (∀ pre mid post,
      containsSub (str "</think>")
          (pre ++ (str "SELECT " ++ (mid ++ ';' :: post))) = false →
      btick ∉ pre ++ (str "SELECT " ++ (mid ++ ';' :: post)) →
      ciHasOccur (str "sql query:")
          (pre ++ (str "SELECT " ++ (mid ++ ';' :: post))) = false →
      ciStartsIn (str "select ") pre (str "SELECT " ++ (mid ++ ';' :: post)) = false →
      ';' ∉ mid →
      extract_sql_query (pre ++ (str "SELECT " ++ (mid ++ ';' :: post)))
        = str "SELECT " ++ (mid ++ [';']))
    ∧ (∀ s, containsSub (str "</think>") s = false → btick ∉ s → ';' ∉ s →
        extract_sql_query s = strip s)
    ∧ (∀ a b, '<' ∉ a → containsSub (str "</think>") b = false →
        extract_sql_query (a ++ str "</think>" ++ b) = extract_sql_query b) := by
  refine ⟨?_, ?_, ?_, ?_, ?_⟩
  · intro pre body post hth hpre hbody
    simp only [extract_sql_query]
    rw [afterThink_eq_none hth]
    simp only [Option.getD_none]
    rw [fenceMatch_append (ciStartsIn_fence_false hpre)]
    rw [fenceMatch_here hbody]
  · intro pre mid post hth hbt hsc hm
    simp only [extract_sql_query]
    rw [afterThink_eq_none hth]
    simp only [Option.getD_none]
    rw [fenceMatch_eq_none hbt]
    rw [sqlQueryMatch_append hsc]
    rw [sqlQueryMatch_here hm]
  · intro pre mid post hth hbt hocc hsc hm
    simp only [extract_sql_query]
    rw [afterThink_eq_none hth]
    simp only [Option.getD_none]
    rw [fenceMatch_eq_none hbt]
    rw [sqlQueryMatch_none_occur hocc]
    rw [bareSelect_append hsc]
    rw [bareSelect_here hm]
  · intro s hth hbt hsemi
    simp only [extract_sql_query]
    rw [afterThink_eq_none hth]
    simp only [Option.getD_none]
    rw [fenceMatch_eq_none hbt]
    rw [sqlQueryMatch_none_semi hsemi]
    rw [bareSelect_none_semi hsemi]
  · intro a b ha hb
    simp only [extract_sql_query]
    rw [afterThink_append ha]
    rw [afterThink_eq_none hb]
    simp only [Option.getD_some, Option.getD_none]

/-- Witness for claim C4 at concrete model outputs, one per branch of the
fallback chain plus the think-block strip. -/
theorem C4_extract_sql_query_fallback_chain_witness :
    extract_sql_query (str "Answer: " ++ (str "```sql" ++ (str " SELECT 1; "
        ++ (str "```" ++ str " ok")))) = strip (str " SELECT 1; ")
    ∧ extract_sql_query (str "Answer: " ++ (str "SQL query: SELECT "
        ++ (str "1" ++ ';' :: str " ok"))) = str "SELECT " ++ (str "1" ++ [';'])
    ∧ extract_sql_query (str "Try " ++ (str "SELECT " ++ (str "2" ++ ';' :: str "")))
        = str "SELECT " ++ (str "2" ++ [';'])
    ∧ extract_sql_query (str "no structured answer")
        = strip (str "no structured answer")
    ∧ extract_sql_query (str "reasoning here" ++ str "</think>" ++ str " SELECT 3; ")
        = extract_sql_query (str " SELECT 3; ") :=
  ⟨(C4_extract_sql_query_fallback_chain.1 (str "Answer: ") (str " SELECT 1; ")
      (str " ok") (by decide) (by decide) (by decide)),
   (C4_extract_sql_query_fallback_chain.2.1 (str "Answer: ") (str "1") (str " ok")
      (by decide) (by decide) (by decide) (by decide)),
   (C4_extract_sql_query_fallback_chain.2.2.1 (str "Try ") (str "2") (str "")
      (by decide) (by decide) (by decide) (by decide) (by decide)),
   (C4_extract_sql_query_fallback_chain.2.2.2.1 (str "no structured answer")
      (by decide) (by decide) (by decide)),
   (C4_extract_sql_query_fallback_chain.2.2.2.2 (str "reasoning here")
      (str " SELECT 3; ") (by decide) (by decide))⟩

/-- Claim C7: `convert_result_to_csv` returns the `None` sentinel on every
empty result and never an empty blob; on a nonempty result it returns a
delimited-text blob whose first record is the header of column names in the
result's key order, followed by one record per row, and decoding the blob
recovers exactly the original rows column-for-column and row-for-row. -/
theorem C7_convert_result_to_csv_roundtrip :
    convert_result_to_csv [] = none
    ∧ ∀ (row0 : List (List Char × List Char))
        (rest : List (List (List Char × List Char))),
        row0 ≠ [] →
        (row0.map Prod.fst).Nodup →
        (∀ r ∈ rest, r.map Prod.fst = row0.map Prod.fst) →
        ∃ blob, convert_result_to_csv (row0 :: rest) = some blob ∧
          parseRecsW blob
            = (row0.map Prod.fst) :: (row0 :: rest).map (fun r => r.map Prod.snd) := by
  constructor
  · rfl
  · intro row0 rest h0 hnd huni
    refine ⟨_, rfl, ?_⟩
    have hhead : row0.map Prod.fst ≠ [] := by simpa using h0
    have htab : ∀ row ∈ (row0.map Prod.fst) ::
        (row0 :: rest).map (fun r =>
          (row0.map Prod.fst).map (fun k => (List.lookup k r).getD [])),
        row ≠ [] := by
      intro row hrow
      rcases List.mem_cons.mp hrow with rfl | hmem
      · exact hhead
      · obtain ⟨r, _, rfl⟩ := List.mem_map.mp hmem
        intro hnil
        exact hhead (List.map_eq_nil_iff.mp hnil)
    rw [parseRecsW_csvLines htab]
    congr 1
    apply List.map_congr_left
    intro r hr
    have hk : r.map Prod.fst = row0.map Prod.fst := by
      rcases List.mem_cons.mp hr with rfl | hr'
      · rfl
      · exact huni r hr'
    calc (row0.map Prod.fst).map (fun k => (List.lookup k r).getD [])
        = (r.map Prod.fst).map (fun k => (List.lookup k r).getD []) := by rw [hk]
      _ = r.map Prod.snd := lookup_align (hk ▸ hnd)

/-- Witness for claim C7: a two-row result whose cells contain a delimiter
and a quote round-trips through the blob, and the empty result gives the
sentinel. -/
theorem C7_convert_result_to_csv_roundtrip_witness :
    convert_result_to_csv [] = none
    ∧ ∃ blob,
      convert_result_to_csv
          [[(str "id", str "1"), (str "note", str "a,b")],
           [(str "id", str "2"), (str "note", str "c\"d")]] = some blob ∧
      parseRecsW blob
        = ([(str "id", str "1"), (str "note", str "a,b")].map Prod.fst)
          :: [[(str "id", str "1"), (str "note", str "a,b")],
              [(str "id", str "2"), (str "note", str "c\"d")]].map
              (fun r => r.map Prod.snd) :=
  ⟨C7_convert_result_to_csv_roundtrip.1,
   C7_convert_result_to_csv_roundtrip.2
     [(str "id", str "1"), (str "note", str "a,b")]
     [[(str "id", str "2"), (str "note", str "c\"d")]]
     (by decide) (by decide) (by decide)⟩
